import Mathlib

/-!
Verification of the xeet screenshot-processing pipeline
(`scripts/tweet-processor/process-tweets.js`).

The script is embedded shallowly: pure fragments become Lean functions on
`List Char` strings and `ℚ` scores; external calls (vision model, web
search) become oracle parameters of type `Except`/`Option`; filesystem
effects of the orchestrator become an explicit event trace.
-/

namespace TweetProcessor

/-! ### Data model

`ClassificationRecord` as produced by `analyzeScreenshot`: the category
enum, the confidence score, the engagement sub-record with nullable
counts, plus the text fields used by the formatter and router. -/

/-- The category enum the classifier is instructed to emit:
`"resource"` or `"project-idea"`. -/
inductive Category where
  | resource
  | projectIdea
deriving DecidableEq, Repr

/-- Engagement sub-record: like/share/reply counts, each nullable
(`number or null` in the classifier contract). -/
structure Engagement where
  likes : Option Int
  retweets : Option Int
  replies : Option Int
deriving DecidableEq, Repr

/-- The structured record returned by `analyzeScreenshot`. -/
structure TweetData where
  author : List Char
  authorName : List Char
  date : Option (List Char)
  text : List Char
  hasImages : Bool
  hasThread : Bool
  engagement : Engagement
  category : Category
  confidence : ℚ
  tags : List (List Char)
  summary : List Char
  title : List Char
  relevance : List Char
deriving DecidableEq, Repr

/-! ### Router (`saveNote`, destination choice)

```js
let targetDir;
if (tweetData.confidence < CONFIG.confidenceThreshold) {
  targetDir = CONFIG.unsureDir;
} else {
  targetDir = tweetData.category === 'resource'
    ? CONFIG.resourcesDir
    : CONFIG.projectsDir;
}
```
-/

/-- The three destination folders `saveNote` can choose between. -/
inductive Destination where
  | resourcesDir
  | projectsDir
  | unsureDir
deriving DecidableEq, Repr

/-- Default of `CONFIG.confidenceThreshold` (`0.7`). -/
def defaultConfidenceThreshold : ℚ := 7 / 10

/-- Destination choice of `saveNote`: confidence below the threshold wins
over the category; otherwise `category === 'resource'` picks the resources
folder and anything else (`project-idea`) the projects folder. -/
def routeNote (threshold : ℚ) (td : TweetData) : Destination :=
  if td.confidence < threshold then
    Destination.unsureDir
  else
    match td.category with
    | Category.resource => Destination.resourcesDir
    | Category.projectIdea => Destination.projectsDir

/-! ### Source scanner (`findNewScreenshots`)

```js
const files = fs.readdirSync(screenshotsPath);
const imageFiles = files.filter(f =>
  /\.(png|jpg|jpeg)$/i.test(f) && !processedScreenshots[f]
);
```
The processed set is the in-memory `processedScreenshots` object; a key
maps to a marker object (always truthy), modelled as a boolean-valued
membership function. -/

/-- The case-insensitive image-extension test `/\.(png|jpg|jpeg)$/i`. -/
def isImageFile (f : List Char) : Bool :=
  let l := f.map Char.toLower
  ".png".data.isSuffixOf l || ".jpg".data.isSuffixOf l ||
    ".jpeg".data.isSuffixOf l

/-- Function `findNewScreenshots`: keep the directory entries that look like images
and carry no processed marker. -/
def findNewScreenshots (files : List (List Char))
    (processed : List Char → Bool) : List (List Char) :=
  files.filter (fun f => isImageFile f && !processed f)

/-! ### Research enricher (`filterResearchResults`, `performAutoResearch`)

The AI relevance-scoring call is an oracle of type
`Except String (List FilterItem)`: `.ok` is a parsed
`{results: [{index, relevance, reason, summary}]}` response, `.error` is a
thrown exception (network failure or unparsable JSON), which the `catch`
block turns into the unfiltered passthrough. -/

/-- One raw web-search result (`{title, url, snippet}`). -/
structure RawResult where
  title : List Char
  url : List Char
  snippet : List Char
deriving DecidableEq, Repr

/-- One entry of the AI filter response: a 1-based index into the raw
list, a relevance score, a reason and a rewritten summary. -/
structure FilterItem where
  index : Int
  relevance : ℚ
  reason : List Char
  summary : List Char
deriving DecidableEq, Repr

/-- An enriched result after filtering. The base fields are optional
because `searchResults[r.index - 1]` is `undefined` when the AI returns an
out-of-range index, and the spread of `undefined` leaves them absent. -/
structure EnrichedResult where
  rTitle : Option (List Char)
  rUrl : Option (List Char)
  rSnippet : Option (List Char)
  relevance : ℚ
  reason : Option (List Char)
  summary : Option (List Char)
deriving DecidableEq, Repr

/-- Lookup `searchResults[r.index - 1]` with JS out-of-range semantics. -/
def rawAt (raw : List RawResult) (i : Int) : Option RawResult :=
  if i < 1 then none else raw.get? (i - 1).toNat

/-- Build one enriched result from a filter-response entry
(`{...searchResults[r.index-1], relevance, reason, summary}`). -/
def enrichOne (raw : List RawResult) (it : FilterItem) : EnrichedResult :=
  match rawAt raw it.index with
  | some r =>
      ⟨some r.title, some r.url, some r.snippet, it.relevance,
        some it.reason, some it.summary⟩
  | none => ⟨none, none, none, it.relevance, some it.reason, some it.summary⟩

/-- Stable insertion into a descending-by-relevance list, mirroring
`sort((a, b) => b.relevance - a.relevance)`. -/
def insertDesc (x : EnrichedResult) : List EnrichedResult → List EnrichedResult
  | [] => [x]
  | y :: t => if y.relevance < x.relevance then x :: y :: t else y :: insertDesc x t

/-- Descending stable sort by relevance. -/
def sortDesc (l : List EnrichedResult) : List EnrichedResult :=
  l.foldr insertDesc []

/-- Function `filterResearchResults`: empty input short-circuits to `[]`; a
successful AI response is threshold-filtered, mapped back onto the raw
results and sorted; a thrown filtering call degrades to all raw results
with relevance `0.5` and the snippet as summary. -/
def filterResearchResults (threshold : ℚ) (raw : List RawResult)
    (aiResponse : Except (List Char) (List FilterItem)) : List EnrichedResult :=
  if raw.isEmpty then []
  else
    match aiResponse with
    | Except.ok items =>
        sortDesc ((items.filter (fun r => threshold ≤ r.relevance)).map
          (enrichOne raw))
    | Except.error _ =>
        raw.map (fun r =>
          ⟨some r.title, some r.url, some r.snippet, 1 / 2, none, some r.snippet⟩)

/-- A `ResearchBundle`: the query used plus the surviving results. -/
structure ResearchBundle where
  query : List Char
  results : List EnrichedResult
deriving DecidableEq, Repr

/-- Function `performAutoResearch`: `null` when disabled; the outer `try/catch`
turns a thrown query generation into `null`; an empty search yields a
bundle with no results without calling the filter; otherwise the bundle
holds the filtered results. `performWebSearch` resolves (never rejects),
so the search oracle is a plain list. -/
def performAutoResearch (enabled : Bool) (threshold : ℚ)
    (queryGen : Except (List Char) (List Char)) (searchResults : List RawResult)
    (aiFilter : Except (List Char) (List FilterItem)) : Option ResearchBundle :=
  if !enabled then none
  else
    match queryGen with
    | Except.error _ => none
    | Except.ok q =>
        if searchResults.isEmpty then some ⟨q, []⟩
        else some ⟨q, filterResearchResults threshold searchResults aiFilter⟩

/-! ### Note formatter fragment (`generateNote`)

The engagement summary line of the note body:

```js
${tweetData.engagement.likes ? `**Engagement:** ${...likes} ❤️ · ${...retweets} 🔄 · ${...replies} 💬` : ''}
```

Only `likes` is consulted, under JS truthiness (`null`, `undefined` and
`0` are falsy). -/

/-- JS truthiness of a nullable count. -/
def jsTruthyNum : Option Int → Bool
  | none => false
  | some n => n ≠ 0

/-- JS template interpolation of a nullable count (`null` prints as
`"null"`). -/
def renderNum : Option Int → List Char
  | none => "null".data
  | some n => (toString n).data

/-- The interpolated engagement line of `generateNote`'s content
template: empty unless `engagement.likes` is truthy. -/
def engagementLine (e : Engagement) : List Char :=
  if jsTruthyNum e.likes then
    "**Engagement:** ".data ++ renderNum e.likes ++ " ❤️ · ".data ++
      renderNum e.retweets ++ " 🔄 · ".data ++ renderNum e.replies ++ " 💬".data
  else
    []

/-! ### Filename derivation (`saveNote`)

```js
const filename = tweetData.title
  .toLowerCase()
  .replace(/[^a-z0-9]+/g, '-')
  .replace(/^-|-$/g, '')
  .substring(0, 50) + '.md';
```
-/

/-- Membership in the character class `[a-z0-9]`. -/
def isAlnumLower (c : Char) : Bool :=
  ('a' ≤ c && c ≤ 'z') || ('0' ≤ c && c ≤ '9')

mutual

/-- The substitution `replace(/[^a-z0-9]+/g, '-')`: each maximal run of characters outside
`[a-z0-9]` becomes a single hyphen. -/
def collapseRuns : List Char → List Char
  | [] => []
  | c :: rest =>
      if isAlnumLower c then c :: collapseRuns rest
      else '-' :: skipRun rest

/-- Skip the remainder of a non-alphanumeric run. -/
def skipRun : List Char → List Char
  | [] => []
  | c :: rest =>
      if isAlnumLower c then c :: collapseRuns rest
      else skipRun rest

end

/-- Drop a single leading hyphen (the `^-` alternative of
`replace(/^-|-$/g, '')`). -/
def dropLeadHyphen : List Char → List Char
  | [] => []
  | c :: t => if c = '-' then t else c :: t

/-- Drop a single trailing hyphen (the `-$` alternative). -/
def dropTrailHyphen (l : List Char) : List Char :=
  (dropLeadHyphen l.reverse).reverse

/-- The substitution `replace(/^-|-$/g, '')` on a string with no adjacent hyphens: remove
one leading and one trailing hyphen. -/
def trimEdgeHyphens (l : List Char) : List Char :=
  dropTrailHyphen (dropLeadHyphen l)

/-- The sanitized base name: lower-case, collapse non-alphanumeric runs,
trim edge hyphens, then `substring(0, 50)`. -/
def sanitizeBase (title : List Char) : List Char :=
  (trimEdgeHyphens (collapseRuns (title.map Char.toLower))).take 50

/-- The derived note filename: sanitized base plus `'.md'`. -/
def noteFilename (title : List Char) : List Char :=
  sanitizeBase title ++ ".md".data

/-! ### Run log (`logResult`)

```js
logContent = `# Tweet Processing Log\n\nAutomated processing log for tweet screenshots.\n\n---\n\n`;
...
const headerEnd = logContent.indexOf('---\n\n') + 5;
logContent = logContent.slice(0, headerEnd) + entry + logContent.slice(headerEnd);
```
-/

/-- The separator substring searched for by `indexOf`. -/
def sepList : List Char := "---\n\n".data

/-- The fixed header written when the log file does not exist. -/
def logHeaderList : List Char :=
  "# Tweet Processing Log\n\nAutomated processing log for tweet screenshots.\n\n---\n\n".data

/-- JS `String.prototype.indexOf` restricted to our use: index of the first
occurrence of `pat`, `none` for JS's `-1`. -/
def subIndex (pat : List Char) : List Char → Option Nat
  | [] => if pat.isPrefixOf ([] : List Char) then some 0 else none
  | c :: rest =>
      if pat.isPrefixOf (c :: rest) then some 0
      else (subIndex pat rest).map (· + 1)

/-- Insert `entry` right after the first occurrence of the separator
(`indexOf` returning `-1` still yields slice position `4`, as in JS). -/
def logInsert (content entry : List Char) : List Char :=
  let headerEnd : Int :=
    (match subIndex sepList content with
     | some j => (j : Int)
     | none => -1) + 5
  content.take headerEnd.toNat ++ entry ++ content.drop headerEnd.toNat

/-- One `logResult` call: create the header when the file is absent, then
insert the entry after the separator. -/
def logResult (existing : Option (List Char)) (entry : List Char) : List Char :=
  logInsert (match existing with | some c => c | none => logHeaderList) entry

/-- The log file contents after a sequence of `logResult` calls starting
from the given state (`none` = file absent). -/
def logRunState (st : Option (List Char)) (entries : List (List Char)) :
    Option (List Char) :=
  entries.foldl (fun acc e => some (logResult acc e)) st

/-- The log entry template of `logResult`, as a function of its
interpolated pieces. -/
def mkLogEntry (date title author category tags noteBase relPath timestamp :
    List Char) : List Char :=
  "## ".data ++ date ++ " - ".data ++ title ++ "\n\n- **Author:** ".data ++
    author ++ "\n- **Category:** ".data ++ category ++
    "\n- **Tags:** ".data ++ tags ++ "\n- **Note:** [[".data ++ noteBase ++
    "]]\n- **Screenshot:** [[".data ++ relPath ++
    "]]\n- **Processed:** ".data ++ timestamp ++ "\n\n".data

/-! ### Orchestrator (`main` loop, `saveNote` effects, `markAsProcessed`)

Each iteration of the `for` loop is driven by which of its fallible steps
throw. External behaviour per item is an `ItemStep` oracle; filesystem
effects are collected as an event trace. Control flow of one iteration:

```js
try {
  const tweetData = await analyzeScreenshot(...);       // classifyOk
  const researchData = await performAutoResearch(...);  // never throws
  const noteContent = generateNote(...);                // formatOk
  const result = saveNote(...);                         // mkdir; dryRun early return; write (saveWriteOk)
  if (result.saved || CONFIG.dryRun) {
    if (result.path) { logResult(...); }                // logWriteOk
    markAsProcessed(screenshot.filename);               // marker; file write unless dryRun
    processed++;
  }
} catch (error) { failed++; }
```
-/

/-- Vault/filesystem write events of one run. -/
inductive FsEvent where
  | mkdirEvent
  | noteWrite
  | logWrite
  | markerFileWrite
deriving DecidableEq, Repr

/-- Oracle for one discovered screenshot: whether each fallible step of
its iteration succeeds, and whether the routed target directory already
exists (`saveNote` calls `mkdirSync` before the dry-run check when it
does not). -/
structure ItemStep where
  filename : List Char
  classifyOk : Bool
  formatOk : Bool
  saveWriteOk : Bool
  logWriteOk : Bool
  targetDirExists : Bool
deriving DecidableEq, Repr

/-- Outcome of one loop iteration: which counter it increments, the
filesystem events it emitted, and whether the in-memory processed map
gained this item's key. -/
structure ItemOutcome where
  succeeded : Bool
  events : List FsEvent
  markerAdded : Bool
deriving DecidableEq, Repr

/-- One iteration of `main`'s loop. `saveNote` in dry-run mode returns
`{saved: false, path: null}` before writing, so `logResult` is skipped
and `markAsProcessed` mutates only the in-memory map; in live mode
`saved` is `true` exactly when the note write did not throw. -/
def processItem (dryRun : Bool) (s : ItemStep) : ItemOutcome :=
  if !s.classifyOk then ⟨false, [], false⟩
  else if !s.formatOk then ⟨false, [], false⟩
  else
    let dirEvents := if s.targetDirExists then [] else [FsEvent.mkdirEvent]
    if dryRun then ⟨true, dirEvents, true⟩
    else if !s.saveWriteOk then ⟨false, dirEvents, false⟩
    else if !s.logWriteOk then ⟨false, dirEvents ++ [FsEvent.noteWrite], false⟩
    else
      ⟨true,
        dirEvents ++ [FsEvent.noteWrite, FsEvent.logWrite, FsEvent.markerFileWrite],
        true⟩

/-- Aggregate state of a run: the two summary counters, the event trace,
and the in-memory processed map. -/
structure RunState where
  processed : Nat
  failed : Nat
  events : List FsEvent
  markers : List Char → Bool

/-- Fold one item into the run state, per the loop body above. -/
def runStep (dryRun : Bool) (st : RunState) (s : ItemStep) : RunState :=
  let o := processItem dryRun s
  { processed := st.processed + (if o.succeeded then 1 else 0)
    failed := st.failed + (if o.succeeded then 0 else 1)
    events := st.events ++ o.events
    markers := fun f =>
      if o.markerAdded && f = s.filename then true else st.markers f }

/-- The whole batch: sequential iteration over the discovered items. -/
def runMain (dryRun : Bool) (markers0 : List Char → Bool)
    (items : List ItemStep) : RunState :=
  items.foldl (runStep dryRun) ⟨0, 0, [], markers0⟩

/-! ### Sample data used by witnesses -/

/-- A concrete classification record (the §8 end-to-end scenario). -/
def sampleTweetData : TweetData where
  author := "@user".data
  authorName := "User".data
  date := none
  text := "tweet text".data
  hasImages := false
  hasThread := false
  engagement := ⟨some 1200, some 340, some 56⟩
  category := Category.resource
  confidence := 92 / 100
  tags := ["ai".data, "rag".data]
  summary := "summary".data
  title := "Building RAG Systems with Claude".data
  relevance := "relevance".data

/-- A concrete raw search-result list for the C4 witness. -/
def sampleRaw : List RawResult :=
  [⟨"RAG tutorial".data, "https://ex.com/a".data, "snippet a".data⟩,
   ⟨"Claude docs".data, "https://ex.com/b".data, "snippet b".data⟩]

/-- An engagement record with share and reply counts but a `null` like
count. -/
def engagementNoLikes : Engagement := ⟨none, some 500, some 10⟩

/-- No two adjacent hyphens. -/
def NoAdjHyphen (l : List Char) : Prop :=
  List.Chain' (fun a b => ¬(a = '-' ∧ b = '-')) l

/-- The title producing a truncation-reintroduced trailing hyphen:
49 `a`s, a space, then `b` — sanitization gives 49 `a`s, a hyphen, and a
`b`, and `substring(0, 50)` cuts right after the hyphen. -/
def hyphenTruncTitle : List Char :=
  "aaaaaaaaaaaaaaaaaaaaaaaaaaaaaaaaaaaaaaaaaaaaaaaaa b".data

/-! ### Claim C1: routing decision -/

/-- C1: for every classification record with confidence in `[0,1]` and
category in `{resource, project-idea}`, the routing decision in `saveNote`
returns exactly one of the three destinations: confidence below the
configured threshold sends the note to the review folder regardless of
category; otherwise category `resource` picks the resources folder and
`project-idea` the projects folder. -/
theorem routing_table_total (threshold : ℚ) (td : TweetData)
    (_h0 : 0 ≤ td.confidence) (_h1 : td.confidence ≤ 1) :
    (td.confidence < threshold →
      routeNote threshold td = Destination.unsureDir) ∧
    (threshold ≤ td.confidence → td.category = Category.resource →
      routeNote threshold td = Destination.resourcesDir) ∧
    (threshold ≤ td.confidence → td.category = Category.projectIdea →
      routeNote threshold td = Destination.projectsDir) ∧
    (routeNote threshold td = Destination.unsureDir ∨
      routeNote threshold td = Destination.resourcesDir ∨
      routeNote threshold td = Destination.projectsDir) := by
  refine ⟨fun hlt => ?_, fun hge hcat => ?_, fun hge hcat => ?_, ?_⟩
  · simp [routeNote, hlt]
  · simp [routeNote, not_lt.mpr hge, hcat]
  · simp [routeNote, not_lt.mpr hge, hcat]
  · by_cases hlt : td.confidence < threshold
    · exact Or.inl (by simp [routeNote, hlt])
    · cases hcat : td.category
      · exact Or.inr (Or.inl (by simp [routeNote, hlt, hcat]))
      · exact Or.inr (Or.inr (by simp [routeNote, hlt, hcat]))

/-- Witness for C1 at the §8 scenario record and the default threshold:
confidence `0.92 ≥ 0.7` and category `resource` route to the resources
folder. -/
theorem routing_table_total_witness :
    defaultConfidenceThreshold ≤ sampleTweetData.confidence ∧
    routeNote defaultConfidenceThreshold sampleTweetData =
      Destination.resourcesDir :=
  ⟨by norm_num [defaultConfidenceThreshold, sampleTweetData],
    (routing_table_total defaultConfidenceThreshold sampleTweetData
      (by norm_num [sampleTweetData]) (by norm_num [sampleTweetData])).2.1
      (by norm_num [defaultConfidenceThreshold, sampleTweetData]) rfl⟩

/-! ### Claim C2: idempotent scanning -/

/-- A step keeps every marker already in the run state. -/
theorem runStep_markers_mono (dryRun : Bool) (st : RunState) (s : ItemStep)
    (x : List Char) (h : st.markers x = true) :
    (runStep dryRun st s).markers x = true := by
  unfold runStep
  dsimp only
  split
  · rfl
  · exact h

/-- Folding the loop never removes a marker. -/
theorem foldl_markers_mono (dryRun : Bool) (items : List ItemStep)
    (st : RunState) (x : List Char) (h : st.markers x = true) :
    (items.foldl (runStep dryRun) st).markers x = true := by
  induction items generalizing st with
  | nil => exact h
  | cons i t ih => exact ih _ (runStep_markers_mono dryRun st i x h)

/-- C2: an identifier carrying a processed marker is never offered by
`findNewScreenshots`, on any invocation, and no run ever removes a
marker, so the exclusion persists for as long as the marker exists. -/
theorem processed_never_rescanned (x : List Char)
    (processed : List Char → Bool) (h : processed x = true) :
    (∀ files, x ∉ findNewScreenshots files processed) ∧
    (∀ dryRun items, (runMain dryRun processed items).markers x = true) := by
  constructor
  · intro files hx
    have := (List.mem_filter.mp hx).2
    simp [h] at this
  · intro dryRun items
    exact foldl_markers_mono dryRun items ⟨0, 0, [], processed⟩ x h

/-- Witness for C2: a marked `a.png` is not rescanned from a directory
that still lists it. -/
theorem processed_never_rescanned_witness :
    "a.png".data ∉ findNewScreenshots ["a.png".data, "b.jpg".data]
      (fun f => f == "a.png".data) :=
  (processed_never_rescanned "a.png".data (fun f => f == "a.png".data)
    (by decide)).1 ["a.png".data, "b.jpg".data]

/-! ### Claims C3, C5, C9: orchestrator effects and counters -/

/-- Each loop iteration increments exactly one of the two counters. -/
theorem foldl_counters (dryRun : Bool) (items : List ItemStep) (st : RunState) :
    (items.foldl (runStep dryRun) st).processed +
        (items.foldl (runStep dryRun) st).failed =
      st.processed + st.failed + items.length := by
  induction items generalizing st with
  | nil => simp
  | cons i t ih =>
    rw [List.foldl_cons, ih]
    unfold runStep
    dsimp only
    cases (processItem dryRun i).succeeded <;> simp <;> omega

/-- In dry-run mode an iteration emits at most a directory creation. -/
theorem processItem_dry_events (s : ItemStep) (e : FsEvent)
    (he : e ∈ (processItem true s).events) : e = FsEvent.mkdirEvent := by
  cases s with
  | mk fn c f sv lg dir =>
    cases c <;> cases f <;> cases dir <;> simp [processItem] at he <;> simp [he]

/-- In dry-run mode the whole batch emits only directory creations on top
of the initial trace. -/
theorem foldl_events_dry (items : List ItemStep) (st : RunState) (e : FsEvent)
    (he : e ∈ (items.foldl (runStep true) st).events) :
    e ∈ st.events ∨ e = FsEvent.mkdirEvent := by
  induction items generalizing st with
  | nil => exact Or.inl he
  | cons i t ih =>
    rcases ih _ he with h | h
    · unfold runStep at h
      dsimp only at h
      rcases List.mem_append.mp h with h' | h'
      · exact Or.inl h'
      · exact Or.inr (processItem_dry_events i e h')
    · exact Or.inr h

/-- C3: with dry-run enabled, a full run over any set of discovered
images writes no note file, does not mutate the processed-set file, and
does not mutate the log document, while the run summary still accounts
for every item as processed or failed. -/
theorem dry_run_no_writes (markers0 : List Char → Bool)
    (items : List ItemStep) :
    FsEvent.noteWrite ∉ (runMain true markers0 items).events ∧
    FsEvent.markerFileWrite ∉ (runMain true markers0 items).events ∧
    FsEvent.logWrite ∉ (runMain true markers0 items).events ∧
    (runMain true markers0 items).processed +
        (runMain true markers0 items).failed = items.length := by
  refine ⟨fun h => ?_, fun h => ?_, fun h => ?_, ?_⟩
  · rcases foldl_events_dry items _ _ h with h' | h' <;> simp at h'
  · rcases foldl_events_dry items _ _ h with h' | h' <;> simp at h'
  · rcases foldl_events_dry items _ _ h with h' | h' <;> simp at h'
  · simpa using foldl_counters true items ⟨0, 0, [], markers0⟩

/-- C5: the processed-marker file is written only on the live path after
the note write and the log write both succeeded, in that order; the
in-memory marker is added only when the iteration completed (the full
pipeline in dry-run mode, through saving and logging in live mode), so a
thrown classification, formatting, save or log step leaves no marker. -/
theorem marker_only_after_save_and_log (dryRun : Bool) (s : ItemStep) :
    ((processItem dryRun s).markerAdded = true →
      (dryRun = true ∧ s.classifyOk = true ∧ s.formatOk = true) ∨
      (dryRun = false ∧ s.classifyOk = true ∧ s.formatOk = true ∧
        s.saveWriteOk = true ∧ s.logWriteOk = true)) ∧
    (FsEvent.markerFileWrite ∈ (processItem dryRun s).events →
      dryRun = false ∧ s.classifyOk = true ∧ s.formatOk = true ∧
      s.saveWriteOk = true ∧ s.logWriteOk = true ∧
      (processItem dryRun s).events =
        (if s.targetDirExists then [] else [FsEvent.mkdirEvent]) ++
          [FsEvent.noteWrite, FsEvent.logWrite, FsEvent.markerFileWrite]) ∧
    ((s.classifyOk = false ∨ s.formatOk = false ∨
        (dryRun = false ∧ (s.saveWriteOk = false ∨ s.logWriteOk = false))) →
      (processItem dryRun s).markerAdded = false ∧
      FsEvent.markerFileWrite ∉ (processItem dryRun s).events) := by
  cases s with
  | mk fn c f sv lg dir =>
    cases dryRun <;> cases c <;> cases f <;> cases sv <;> cases lg <;>
      cases dir <;> simp [processItem]

/-- Witness for C5: a live-mode item whose log write throws gets no
marker. -/
theorem marker_only_after_save_and_log_witness :
    (processItem false ⟨"a.png".data, true, true, true, false, true⟩).markerAdded
        = false ∧
    FsEvent.markerFileWrite ∉
      (processItem false ⟨"a.png".data, true, true, true, false, true⟩).events :=
  (marker_only_after_save_and_log false
    ⟨"a.png".data, true, true, true, false, true⟩).2.2
    (Or.inr (Or.inr ⟨rfl, Or.inr rfl⟩))

/-- C9: every discovered item increments exactly one of the two run
counters, so at the summary `processed + failed` equals the number of
discovered items, in live and dry-run mode alike. -/
theorem counters_partition_batch (dryRun : Bool) (markers0 : List Char → Bool)
    (items : List ItemStep) :
    (runMain dryRun markers0 items).processed +
        (runMain dryRun markers0 items).failed = items.length := by
  simpa using foldl_counters dryRun items ⟨0, 0, [], markers0⟩

/-! ### Claim C4: enrichment graceful degradation -/

/-- C4: for every non-empty raw result list, a thrown relevance-filtering
call makes `filterResearchResults` return all raw results with relevance
`0.5` and the original snippet as summary, and `performAutoResearch`
still yields a bundle — enrichment failure never fails the item. -/
theorem filter_graceful_degradation (threshold : ℚ) (raw : List RawResult)
    (err q : List Char) (h : raw ≠ []) :
    filterResearchResults threshold raw (Except.error err) =
      raw.map (fun r =>
        ⟨some r.title, some r.url, some r.snippet, 1 / 2, none,
          some r.snippet⟩) ∧
    performAutoResearch true threshold (Except.ok q) raw (Except.error err) =
      some ⟨q, raw.map (fun r =>
        ⟨some r.title, some r.url, some r.snippet, 1 / 2, none,
          some r.snippet⟩)⟩ := by
  have hne : raw.isEmpty = false := by
    simpa [List.isEmpty_iff] using h
  constructor
  · simp [filterResearchResults, hne]
  · simp [performAutoResearch, filterResearchResults, hne]

/-- Witness for C4 at a concrete two-element raw list and a thrown
filter call. -/
theorem filter_graceful_degradation_witness :
    filterResearchResults (6 / 10) sampleRaw (Except.error "boom".data) =
      sampleRaw.map (fun r =>
        ⟨some r.title, some r.url, some r.snippet, 1 / 2, none,
          some r.snippet⟩) ∧
    performAutoResearch true (6 / 10) (Except.ok "rag query".data) sampleRaw
        (Except.error "boom".data) =
      some ⟨"rag query".data, sampleRaw.map (fun r =>
        ⟨some r.title, some r.url, some r.snippet, 1 / 2, none,
          some r.snippet⟩)⟩ :=
  filter_graceful_degradation (6 / 10) sampleRaw "boom".data "rag query".data
    (by decide)

/-! ### Claim C8: engagement summary line -/

/-- C8 counterexample: the claim says the engagement portion appears
whenever any of the like/share/reply counts is present, but with
`likes: null`, `retweets: 500`, `replies: 10` the line is omitted — the
template consults only `engagement.likes`. -/
theorem engagement_line_counterexample :
    engagementNoLikes.retweets = some 500 ∧
    engagementNoLikes.replies = some 10 ∧
    engagementLine engagementNoLikes = [] :=
  ⟨rfl, rfl, rfl⟩

/-- C8 amended: the engagement line appears exactly when the like count
is present and nonzero (JS truthiness of `engagement.likes`); the share
and reply counts are never consulted. -/
theorem engagement_line_iff_likes (e : Engagement) :
    engagementLine e ≠ [] ↔ ∃ n : Int, e.likes = some n ∧ n ≠ 0 := by
  cases e with
  | mk lk rt rp =>
    cases lk with
    | none => simp [engagementLine, jsTruthyNum]
    | some n =>
      by_cases hn : n = 0
      · subst hn
        simp [engagementLine, jsTruthyNum]
      · have hline : engagementLine ⟨some n, rt, rp⟩ ≠ [] := by
          simp only [engagementLine, jsTruthyNum]
          rw [if_pos (by simpa using hn)]
          repeat apply List.append_ne_nil_of_left_ne_nil
          decide
        simp [hline, hn]

/-- Witness for C8 amended: a nonzero like count makes the line appear. -/
theorem engagement_line_iff_likes_witness :
    engagementLine ⟨some 1200, some 340, some 56⟩ ≠ [] :=
  (engagement_line_iff_likes ⟨some 1200, some 340, some 56⟩).mpr
    ⟨1200, rfl, by decide⟩

/-! ### Claims C7, C10: filename sanitization -/

/-- A character of `[a-z0-9]` is not a hyphen. -/
theorem isAlnumLower_ne_hyphen {c : Char} (h : isAlnumLower c = true) :
    c ≠ '-' := by
  intro he
  subst he
  simp [isAlnumLower] at h

/-- Run collapsing yields no adjacent hyphens, and the run skipper
resumes at an alphanumeric character. -/
theorem collapse_spec (l : List Char) :
    NoAdjHyphen (collapseRuns l) ∧ NoAdjHyphen (skipRun l) ∧
      (∀ c t, skipRun l = c :: t → isAlnumLower c = true) := by
  induction l with
  | nil =>
    refine ⟨?_, ?_, ?_⟩ <;> simp [collapseRuns, skipRun, NoAdjHyphen]
  | cons c rest ih =>
    obtain ⟨ihc, ihs, ihhd⟩ := ih
    by_cases hc : isAlnumLower c = true
    · have hcons : NoAdjHyphen (c :: collapseRuns rest) := by
        rw [NoAdjHyphen, List.chain'_cons']
        exact ⟨fun b _ hb => absurd hb.1 (isAlnumLower_ne_hyphen hc), ihc⟩
      refine ⟨?_, ?_, ?_⟩
      · simpa [collapseRuns, hc] using hcons
      · simpa [skipRun, hc] using hcons
      · intro d t hdt
        rw [skipRun, if_pos hc] at hdt
        injection hdt with h1 _
        exact h1 ▸ hc
    · have hcons : NoAdjHyphen ('-' :: skipRun rest) := by
        rw [NoAdjHyphen, List.chain'_cons']
        refine ⟨?_, ihs⟩
        intro b hb hcontra
        match hsk : skipRun rest with
        | [] => rw [hsk] at hb; simp at hb
        | d :: t =>
          rw [hsk] at hb
          simp at hb
          exact absurd (hb ▸ hcontra.2) (isAlnumLower_ne_hyphen (ihhd d t hsk))
      refine ⟨?_, ?_, ?_⟩
      · simpa [collapseRuns, hc] using hcons
      · simpa [skipRun, hc] using ihs
      · intro d t hdt
        rw [skipRun, if_neg hc] at hdt
        exact ihhd d t hdt

/-- Dropping a leading hyphen from a hyphen-collapsed string leaves a
head that is not a hyphen. -/
theorem dropLead_head (m : List Char) (h : NoAdjHyphen m) :
    ∀ c, (dropLeadHyphen m).head? = some c → c ≠ '-' := by
  intro c hc
  cases m with
  | nil => simp [dropLeadHyphen] at hc
  | cons a t =>
    by_cases ha : a = '-'
    · rw [dropLeadHyphen, if_pos ha] at hc
      subst ha
      have := (List.chain'_cons'.mp h).1
      cases t with
      | nil => simp at hc
      | cons b t' =>
        simp at hc
        intro hcontra
        exact this b rfl ⟨rfl, hc ▸ hcontra⟩
    · rw [dropLeadHyphen, if_neg ha] at hc
      simp at hc
      exact hc ▸ ha

/-- Dropping a leading hyphen preserves hyphen-collapsedness. -/
theorem noAdj_dropLead (m : List Char) (h : NoAdjHyphen m) :
    NoAdjHyphen (dropLeadHyphen m) := by
  cases m with
  | nil => simpa [dropLeadHyphen] using h
  | cons a t =>
    by_cases ha : a = '-'
    · rw [dropLeadHyphen, if_pos ha]
      exact (List.chain'_cons'.mp h).2
    · rwa [dropLeadHyphen, if_neg ha]

/-- Hyphen-collapsedness is symmetric under reversal. -/
theorem noAdj_reverse (m : List Char) (h : NoAdjHyphen m) :
    NoAdjHyphen m.reverse := by
  rw [NoAdjHyphen, List.chain'_reverse]
  exact h.imp fun _ _ hab hc => hab ⟨hc.2, hc.1⟩

/-- After the edge trim, a hyphen-collapsed string does not end in a
hyphen. -/
theorem trim_getLast (m : List Char) (h : NoAdjHyphen m) :
    (trimEdgeHyphens m).getLast? ≠ some '-' := by
  unfold trimEdgeHyphens dropTrailHyphen
  rw [List.getLast?_reverse]
  intro hc
  exact dropLead_head _ (noAdj_reverse _ (noAdj_dropLead _ h)) '-' hc rfl

/-- Function `dropLeadHyphen` keeps the list or removes its head. -/
theorem dropLead_cases (l : List Char) :
    dropLeadHyphen l = l ∨ dropLeadHyphen l = l.tail := by
  cases l with
  | nil => exact Or.inl rfl
  | cons a t =>
    by_cases ha : a = '-'
    · exact Or.inr (by rw [dropLeadHyphen, if_pos ha]; rfl)
    · exact Or.inl (by rw [dropLeadHyphen, if_neg ha])

/-- A head surviving `dropLast` was the head of the original list. -/
theorem head?_dropLast (l : List Char) (c : Char)
    (h : l.dropLast.head? = some c) : l.head? = some c := by
  cases l with
  | nil => simp at h
  | cons a t =>
    cases t with
    | nil => simp at h
    | cons b t' => simpa using h

/-- After the edge trim, a hyphen-collapsed string does not start with a
hyphen. -/
theorem trim_head (m : List Char) (h : NoAdjHyphen m) :
    ∀ c, (trimEdgeHyphens m).head? = some c → c ≠ '-' := by
  intro c hc
  unfold trimEdgeHyphens dropTrailHyphen at hc
  rcases dropLead_cases (dropLeadHyphen m).reverse with hd | hd
  · rw [hd, List.reverse_reverse] at hc
    exact dropLead_head m h c hc
  · rw [hd, List.tail_reverse, List.reverse_reverse] at hc
    exact dropLead_head m h c (head?_dropLast _ c hc)

/-- A head surviving `take` was the head of the original list. -/
theorem head?_take (n : Nat) (l : List Char) (c : Char)
    (h : (l.take n).head? = some c) : l.head? = some c := by
  cases l with
  | nil => simp at h
  | cons a t =>
    cases n with
    | zero => simp at h
    | succ k => simpa using h

/-- C7 counterexample: the claim asserts the derived filename base never
ends in a hyphen, but for this title the 50-character truncation cuts
immediately after a hyphen, yielding a base with a trailing hyphen. -/
theorem filename_trailing_hyphen_counterexample :
    noteFilename hyphenTruncTitle =
      "aaaaaaaaaaaaaaaaaaaaaaaaaaaaaaaaaaaaaaaaaaaaaaaaa-.md".data ∧
    (sanitizeBase hyphenTruncTitle).getLast? = some '-' := by
  constructor <;> decide

/-- C7 amended: the derived filename is the title lower-cased, runs of
non-alphanumerics collapsed to single hyphens, edge hyphens trimmed,
truncated to 50 characters, with `.md` appended; it never starts with a
hyphen, and it has no trailing hyphen whenever the trimmed base fits in
50 characters (truncation can reintroduce one); the title
`"Building RAG Systems: Claude!!"` yields
`building-rag-systems-claude.md`. -/
theorem filename_sanitization (title : List Char) :
    noteFilename "Building RAG Systems: Claude!!".data =
      "building-rag-systems-claude.md".data ∧
    (∀ c, (sanitizeBase title).head? = some c → c ≠ '-') ∧
    ((trimEdgeHyphens (collapseRuns (title.map Char.toLower))).length ≤ 50 →
      (sanitizeBase title).getLast? ≠ some '-') := by
  have hnoadj : NoAdjHyphen (collapseRuns (title.map Char.toLower)) :=
    (collapse_spec (title.map Char.toLower)).1
  refine ⟨by decide, ?_, ?_⟩
  · intro c hc
    exact trim_head _ hnoadj c (head?_take 50 _ c hc)
  · intro hlen
    unfold sanitizeBase
    rw [List.take_of_length_le hlen]
    exact trim_getLast _ hnoadj

/-- Witness for C7 amended at the round-trip title: the base fits in 50
characters and indeed ends in a letter, not a hyphen. -/
theorem filename_sanitization_witness :
    (trimEdgeHyphens (collapseRuns
        ("Building RAG Systems: Claude!!".data.map Char.toLower))).length ≤ 50 ∧
    (sanitizeBase "Building RAG Systems: Claude!!".data).getLast? ≠ some '-' :=
  ⟨by decide,
    (filename_sanitization "Building RAG Systems: Claude!!".data).2.2
      (by decide)⟩

/-- All-non-alphanumeric input collapses to at most one hyphen, and the
run skipper consumes it entirely. -/
theorem collapse_all_bad (l : List Char)
    (h : ∀ c ∈ l, isAlnumLower c = false) :
    (collapseRuns l = [] ∨ collapseRuns l = ['-']) ∧ skipRun l = [] := by
  induction l with
  | nil => simp [collapseRuns, skipRun]
  | cons c rest ih =>
    have hc : isAlnumLower c = false := h c (by simp)
    have ih' := ih fun d hd => h d (by simp [hd])
    constructor
    · right
      rw [collapseRuns, if_neg (by simp [hc]), ih'.2]
    · rw [skipRun, if_neg (by simp [hc])]
      exact ih'.2

/-- C10: a title with no alphanumeric characters sanitizes to the empty
base, so the derived filename is exactly `.md` — no minimum-length or
emptiness check precedes appending the extension. -/
theorem no_alnum_title_dotfile (title : List Char)
    (h : ∀ c ∈ title, isAlnumLower (Char.toLower c) = false) :
    noteFilename title = ".md".data := by
  have h' : ∀ c ∈ title.map Char.toLower, isAlnumLower c = false := by
    intro c hc
    obtain ⟨d, hd, rfl⟩ := List.mem_map.mp hc
    exact h d hd
  obtain ⟨hcol, -⟩ := collapse_all_bad _ h'
  unfold noteFilename sanitizeBase
  rcases hcol with hc | hc <;> rw [hc] <;> rfl

/-- Witness for C10 at the title `"!!!"`. -/
theorem no_alnum_title_dotfile_witness :
    noteFilename "!!!".data = ".md".data :=
  no_alnum_title_dotfile "!!!".data (by decide)

/-! ### Claim C6: log creation and newest-first ordering -/

/-- A found occurrence fits inside the searched string. -/
theorem subIndex_some_le (pat l : List Char) (j : Nat)
    (h : subIndex pat l = some j) : j + pat.length ≤ l.length := by
  induction l generalizing j with
  | nil =>
    rw [subIndex] at h
    split at h
    · rename_i hp
      have : pat = [] := List.prefix_nil.mp (List.isPrefixOf_iff_prefix.mp hp)
      injection h with h0
      simp [this, ← h0]
    · exact absurd h (by simp)
  | cons c rest ih =>
    rw [subIndex] at h
    split at h
    · rename_i hp
      injection h with h0
      have := (List.isPrefixOf_iff_prefix.mp hp).length_le
      simpa [← h0] using this
    · rcases Option.map_eq_some'.mp h with ⟨j', hj', rfl⟩
      have := ih j' hj'
      simp only [List.length_cons]
      omega

/-- The empty pattern is found at offset `0` of any string. -/
theorem subIndex_nil_pat (l : List Char) :
    subIndex ([] : List Char) l = some 0 := by
  cases l <;> simp [subIndex, List.isPrefixOf]

/-- The first occurrence inside a prefix stays the first occurrence of
the extended string. -/
theorem subIndex_append (pat l zs : List Char) (j : Nat)
    (h : subIndex pat l = some j) : subIndex pat (l ++ zs) = some j := by
  induction l generalizing j with
  | nil =>
    rw [subIndex] at h
    split at h
    · rename_i hp
      injection h with h0
      have hpat : pat = [] := List.prefix_nil.mp (List.isPrefixOf_iff_prefix.mp hp)
      subst hpat
      rw [List.nil_append, subIndex_nil_pat]
      exact congrArg some h0
    · exact absurd h (by simp)
  | cons c rest ih =>
    rw [subIndex] at h
    split at h
    · rename_i hp
      injection h with h0
      rw [List.cons_append, subIndex, if_pos]
      · exact congrArg some h0
      · exact List.isPrefixOf_iff_prefix.mpr
          ((List.isPrefixOf_iff_prefix.mp hp).trans (List.prefix_append _ _))
    · rename_i hp
      rcases Option.map_eq_some'.mp h with ⟨j', hj', rfl⟩
      have hlen : j' + pat.length ≤ rest.length := subIndex_some_le pat rest j' hj'
      rw [List.cons_append, subIndex, if_neg, ih j' hj']
      · rfl
      · intro hp'
        apply hp
        apply List.isPrefixOf_iff_prefix.mpr
        apply List.prefix_of_prefix_length_le
          (List.isPrefixOf_iff_prefix.mp hp') (List.prefix_append _ _)
        simp only [List.length_cons]
        omega

/-- The separator first occurs at offset 73 of the header, and any text
inserted after the header keeps it there. -/
theorem subIndex_header_body (body : List Char) :
    subIndex sepList (logHeaderList ++ body) = some 73 :=
  subIndex_append sepList logHeaderList body 73 (by decide)

/-- Inserting into a log that starts with the header places the entry
directly after the header, before all older text. -/
theorem logInsert_header (body entry : List Char) :
    logInsert (logHeaderList ++ body) entry = logHeaderList ++ entry ++ body := by
  rw [logInsert, subIndex_header_body body]
  norm_num
  rw [show Int.toNat 78 = logHeaderList.length from by decide, List.take_left,
    List.drop_left]

/-- Folding `logResult` over further entries accumulates them
newest-first between the header and the older body. -/
theorem logResult_fold (es : List (List Char)) (body : List Char) :
    es.foldl (fun acc e => some (logResult acc e))
        (some (logHeaderList ++ body)) =
      some (logHeaderList ++ (es.reverse.flatten ++ body)) := by
  induction es generalizing body with
  | nil => simp
  | cons e t ih =>
    rw [List.foldl_cons]
    have hstep : logResult (some (logHeaderList ++ body)) e =
        logHeaderList ++ (e ++ body) := by
      show logInsert (logHeaderList ++ body) e = _
      rw [logInsert_header, List.append_assoc]
    rw [hstep, ih (e ++ body)]
    simp

/-- C6: starting from a nonexistent log document, `logResult` creates it
with the fixed header ending in the separator, and every subsequent
entry is inserted immediately after the first occurrence of the
separator, so after any nonempty sequence of appends the document is the
single header followed by the entries most-recent-first. -/
theorem log_append_newest_first (entries : List (List Char))
    (h : entries ≠ []) :
    logRunState none entries =
      some (logHeaderList ++ entries.reverse.flatten) := by
  cases entries with
  | nil => exact absurd rfl h
  | cons e t =>
    rw [logRunState, List.foldl_cons]
    have h0 : logResult none e = logHeaderList ++ e := by
      show logInsert logHeaderList e = _
      have := logInsert_header [] e
      rwa [List.append_nil, List.append_nil] at this
    rw [h0, show logHeaderList ++ e = logHeaderList ++ (e ++ []) by simp,
      logResult_fold t (e ++ [])]
    simp

/-- Witness for C6: two concrete entries appended in sequence end up
newest-first after the single header. -/
theorem log_append_newest_first_witness :
    logRunState none
        [mkLogEntry "2025-01-01".data "First note".data "@a".data
          "resource".data "ai".data "first-note".data "x/a.png".data
          "2025-01-01T00:00:00Z".data,
         "## 2025-01-02 - Second note\n\n".data] =
      some (logHeaderList ++
        ([mkLogEntry "2025-01-01".data "First note".data "@a".data
            "resource".data "ai".data "first-note".data "x/a.png".data
            "2025-01-01T00:00:00Z".data,
          "## 2025-01-02 - Second note\n\n".data]).reverse.flatten) :=
  log_append_newest_first _ (by decide)

end TweetProcessor
